import Mathlib

/-!
Verification of the Metric Aggregator of the EcoCampus repository
(`src/data_processor.py`, `DataProcessor.merge_consumption_with_static`).

The embedding models one pandas DataFrame row per Lean structure value.
A numeric cell that may be NaN/missing is `Option ℚ` (`none` = NaN); a
string cell that may be missing is `Option String`.  The pipeline of
`merge_consumption_with_static` (lines 138-190 of `data_processor.py`) is
translated step by step:

* year filter (`electricity_df[electricity_df['Year'] == int(selected_year)]`),
* `groupby('project_name').agg({'Year_total_KwH': 'first'|'sum', 'City': 'first'})`
  — pandas `first` takes the first NON-null value of the group and pandas
  `sum` skips NaN (an all-NaN group sums to `0`),
* `pd.merge(static_df, consumption_summary, on='project_name', how='left',
  suffixes=('', '_elec'))` — a left join that keeps every static row; the
  grouped summary has unique keys, so each static row matches at most one
  summary row; unmatched right-hand columns become NaN,
* drop of the duplicated `City_elec` column,
* the two `np.where((den > 0) & (num.notna()), num / den, 0)` ratio columns,
  computed from the PRE-fill total,
* `fillna(0)` on `Year_total_KwH`.

pandas sorts group keys while this model keeps them in order of first
appearance; the grouped keys are unique either way and the left join matches
by key, so the merged output does not depend on the order of the summary rows.
-/

/-- One row of the electricity (Consumption) table, after loading:
`project_name` key, `City`, numeric `Year` and `Year_total_KwH`
(both may be NaN after `pd.to_numeric(..., errors='coerce')`). -/
structure ElecRow where
  project_name : String
  City : Option String
  Year : Option Int
  Year_total_KwH : Option ℚ
deriving DecidableEq

/-- One row of the static (Building) table: `project_name` key, `City`,
numeric `total_HE` (student capacity) and `Total_BRA` (floor area),
both possibly NaN. -/
structure StaticRow where
  project_name : String
  City : Option String
  total_HE : Option ℚ
  Total_BRA : Option ℚ
deriving DecidableEq

/-- The `selected_year` argument: `None`/`'Alle'` (all years) or a
specific year, compared through `int(selected_year)`. -/
inductive Scope where
  | alle : Scope
  | year : Int → Scope
deriving DecidableEq

/-- Line 141-145: `electricity_df[electricity_df['Year'] == int(selected_year)]`
for a specific year (a NaN `Year` compares unequal and is dropped), the
whole table for `None`/`'Alle'`. -/
def filterScope (elec : List ElecRow) : Scope → List ElecRow
  | Scope.alle => elec
  | Scope.year y => elec.filter (fun r => r.Year == some y)

/-- pandas `GroupBy.first`: the first non-null value of the column,
`none` when every value is null. -/
def firstVal {α : Type} : List (Option α) → Option α
  | [] => none
  | none :: rest => firstVal rest
  | some v :: _ => some v

/-- pandas `GroupBy.sum` with default `skipna`: NaN cells are ignored and
an all-NaN (or empty) column sums to `0`. -/
def sumVals (xs : List (Option ℚ)) : ℚ := (xs.filterMap id).sum

/-- Append an element unless already present (used to model the set of
group keys in order of first appearance). -/
def insert1 {α : Type} [DecidableEq α] (xs : List α) (x : α) : List α :=
  if x ∈ xs then xs else xs ++ [x]

/-- Deduplicate a list keeping first occurrences. -/
def dedupKeep {α : Type} [DecidableEq α] (xs : List α) : List α :=
  xs.foldl insert1 []

/-- The distinct group keys of `groupby('project_name')`. -/
def keysOf (rows : List ElecRow) : List String :=
  dedupKeep (rows.map (fun r => r.project_name))

/-- The rows of one `project_name` group. -/
def groupOf (rows : List ElecRow) (p : String) : List ElecRow :=
  rows.filter (fun r => r.project_name == p)

/-- The distinct years appearing in the Consumption table (NaN years
carry no year). -/
def yearsOf (rows : List ElecRow) : List Int :=
  dedupKeep (rows.filterMap (fun r => r.Year))

/-- One row of `consumption_summary` (lines 147-159): the group key, the
aggregated `Year_total_KwH` and the first city of the group. -/
structure SummaryRow where
  project_name : String
  Year_total_KwH : Option ℚ
  City : Option String
deriving DecidableEq

/-- Lines 148-159: the `Year_total_KwH` aggregation — `'first'` for a
specific year, `'sum'` for all years. -/
def aggTotal (scope : Scope) (grp : List ElecRow) : Option ℚ :=
  match scope with
  | Scope.year _ => firstVal (grp.map (fun r => r.Year_total_KwH))
  | Scope.alle => some (sumVals (grp.map (fun r => r.Year_total_KwH)))

/-- The summary row produced for one group key. -/
def summaryFor (scope : Scope) (filtered : List ElecRow) (p : String) : SummaryRow :=
  { project_name := p
    Year_total_KwH := aggTotal scope (groupOf filtered p)
    City := firstVal ((groupOf filtered p).map (fun r => r.City)) }

/-- Lines 147-159: `electricity_filtered.groupby('project_name').agg(...)`
(`reset_index` included): one summary row per distinct key. -/
def aggregateConsumption (elec : List ElecRow) (scope : Scope) : List SummaryRow :=
  (keysOf (filterScope elec scope)).map (summaryFor scope (filterScope elec scope))

/-- A merged row right after `pd.merge` (lines 161-168): all static
columns, the consumption columns suffixed where they clash (`City_elec`). -/
structure MergedRow where
  project_name : String
  City : Option String
  total_HE : Option ℚ
  Total_BRA : Option ℚ
  Year_total_KwH : Option ℚ
  City_elec : Option String
deriving DecidableEq

/-- A static row joined with its matching summary row. -/
def matchRow (s : StaticRow) (m : SummaryRow) : MergedRow :=
  { project_name := s.project_name
    City := s.City
    total_HE := s.total_HE
    Total_BRA := s.Total_BRA
    Year_total_KwH := m.Year_total_KwH
    City_elec := m.City }

/-- A static row with no matching summary row: the right-hand columns of
the left join are NaN. -/
def unmatchedRow (s : StaticRow) : MergedRow :=
  { project_name := s.project_name
    City := s.City
    total_HE := s.total_HE
    Total_BRA := s.Total_BRA
    Year_total_KwH := none
    City_elec := none }

/-- Lines 161-168: `pd.merge(static_df, consumption_summary,
on='project_name', how='left', suffixes=('', '_elec'))` — each static row,
in order, followed by its matching summary rows (one NaN-extended row when
there is no match). -/
def leftMerge (summary : List SummaryRow) : List StaticRow → List MergedRow
  | [] => []
  | s :: rest =>
      (match summary.filter (fun m => m.project_name == s.project_name) with
       | [] => [unmatchedRow s]
       | ms => ms.map (matchRow s)) ++ leftMerge summary rest

/-- Lines 175-185: `np.where((den > 0) & (num.notna()), num / den, 0)`.
A NaN denominator fails `den > 0`, a NaN numerator fails `notna`, so the
division is only ever taken with a present numerator and a positive
denominator and the resulting cell is never NaN and never raises. -/
def ratioGuard (num den : Option ℚ) : Option ℚ :=
  match den, num with
  | some d, some n => if 0 < d then some (n / d) else some 0
  | _, _ => some 0

/-- The post-processing of one merged row: the `City_elec` column dropped
(lines 171-172), the two ratio columns (lines 175-185, computed from the
PRE-fill `Year_total_KwH`), and `fillna(0)` on `Year_total_KwH` (line 188). -/
structure OutRow where
  project_name : String
  City : Option String
  total_HE : Option ℚ
  Total_BRA : Option ℚ
  Year_total_KwH : Option ℚ
  kwh_per_student : Option ℚ
  kwh_per_m2 : Option ℚ
deriving DecidableEq

/-- Lines 171-190 applied to one merged row. -/
def postProcess (m : MergedRow) : OutRow :=
  { project_name := m.project_name
    City := m.City
    total_HE := m.total_HE
    Total_BRA := m.Total_BRA
    Year_total_KwH := some (m.Year_total_KwH.getD 0)
    kwh_per_student := ratioGuard m.Year_total_KwH m.total_HE
    kwh_per_m2 := ratioGuard m.Year_total_KwH m.Total_BRA }

/-- `DataProcessor.merge_consumption_with_static` (lines 138-190):
filter by scope, aggregate per project, left-join onto the static table,
drop `City_elec`, add the guarded ratio columns, zero-fill the total. -/
def merge_consumption_with_static (elec : List ElecRow) (static : List StaticRow)
    (scope : Scope) : List OutRow :=
  (leftMerge (aggregateConsumption elec scope) static).map postProcess

/-- The zero-filled aggregated total a given project key receives:
`none` when the key has no row in the filtered table (the left join then
leaves NaN), otherwise the scope's aggregation of its group. -/
def aggValue (elec : List ElecRow) (scope : Scope) (p : String) : Option ℚ :=
  if (groupOf (filterScope elec scope) p).isEmpty then none
  else aggTotal scope (groupOf (filterScope elec scope) p)

/-- Closed form of the output row generated for one static row. -/
def outFor (elec : List ElecRow) (scope : Scope) (s : StaticRow) : OutRow :=
  { project_name := s.project_name
    City := s.City
    total_HE := s.total_HE
    Total_BRA := s.Total_BRA
    Year_total_KwH := some ((aggValue elec scope s.project_name).getD 0)
    kwh_per_student := ratioGuard (aggValue elec scope s.project_name) s.total_HE
    kwh_per_m2 := ratioGuard (aggValue elec scope s.project_name) s.Total_BRA }

/-- The sum of the (zero-filled) total-consumption column of an output
table. -/
def totalOf (rows : List OutRow) : ℚ :=
  (rows.map (fun r => r.Year_total_KwH.getD 0)).sum

/-! ### Key-uniqueness lemmas for the grouped summary -/

theorem mem_insert1 {α : Type} [DecidableEq α] (xs : List α) (x a : α) :
    a ∈ insert1 xs x ↔ a ∈ xs ∨ a = x := by
  unfold insert1
  by_cases hx : x ∈ xs
  · simp only [if_pos hx]
    constructor
    · exact fun h => Or.inl h
    · rintro (h | h)
      · exact h
      · exact h ▸ hx
  · simp [if_neg hx]

theorem nodup_insert1 {α : Type} [DecidableEq α] (xs : List α) (x : α)
    (h : xs.Nodup) : (insert1 xs x).Nodup := by
  unfold insert1
  by_cases hx : x ∈ xs
  · simpa [if_pos hx] using h
  · rw [if_neg hx]
    rw [List.nodup_append]
    refine ⟨h, List.nodup_singleton x, ?_⟩
    intro a ha hax
    rw [List.mem_singleton] at hax
    exact hx (hax ▸ ha)

theorem nodup_foldl_insert1 {α : Type} [DecidableEq α] :
    ∀ (xs acc : List α), acc.Nodup → (xs.foldl insert1 acc).Nodup
  | [], _, h => h
  | x :: xs, acc, h => nodup_foldl_insert1 xs (insert1 acc x) (nodup_insert1 acc x h)

theorem mem_foldl_insert1 {α : Type} [DecidableEq α] :
    ∀ (xs acc : List α) (a : α), a ∈ xs.foldl insert1 acc ↔ a ∈ acc ∨ a ∈ xs
  | [], _, a => by simp
  | x :: xs, acc, a => by
    rw [List.foldl_cons, mem_foldl_insert1 xs (insert1 acc x) a, mem_insert1]
    constructor
    · rintro ((h | h) | h)
      · exact Or.inl h
      · exact Or.inr (h ▸ List.mem_cons_self x xs)
      · exact Or.inr (List.mem_cons_of_mem x h)
    · rintro (h | h)
      · exact Or.inl (Or.inl h)
      · rcases List.mem_cons.mp h with h | h
        · exact Or.inl (Or.inr h)
        · exact Or.inr h

theorem nodup_dedupKeep {α : Type} [DecidableEq α] (xs : List α) :
    (dedupKeep xs).Nodup :=
  nodup_foldl_insert1 xs [] List.nodup_nil

theorem mem_dedupKeep {α : Type} [DecidableEq α] (xs : List α) (a : α) :
    a ∈ dedupKeep xs ↔ a ∈ xs := by
  unfold dedupKeep
  rw [mem_foldl_insert1]
  simp

theorem nodup_keysOf (rows : List ElecRow) : (keysOf rows).Nodup :=
  nodup_dedupKeep _

/-- A key is among the group keys exactly when its group is nonempty. -/
theorem mem_keysOf_iff (rows : List ElecRow) (p : String) :
    p ∈ keysOf rows ↔ ¬ (groupOf rows p).isEmpty := by
  unfold keysOf groupOf
  rw [mem_dedupKeep, List.isEmpty_iff, List.mem_map]
  constructor
  · rintro ⟨r, hr, rfl⟩ hnil
    have : r ∈ rows.filter (fun r' => r'.project_name == r.project_name) :=
      List.mem_filter.mpr ⟨hr, by simp⟩
    rw [hnil] at this
    exact absurd this (List.not_mem_nil r)
  · intro hne
    rcases List.exists_mem_of_ne_nil _ (fun h => hne h) with ⟨r, hr⟩
    rcases List.mem_filter.mp hr with ⟨hmem, hbeq⟩
    exact ⟨r, hmem, by simpa using hbeq⟩

/-- Filtering the mapped summary rows for one key keeps exactly the image
of that key when the key list has no duplicates. -/
theorem filter_map_summaryFor (scope : Scope) (filtered : List ElecRow) (p : String)
    (ks : List String) (hnd : ks.Nodup) :
    ((ks.map (summaryFor scope filtered)).filter (fun m => m.project_name == p))
      = if p ∈ ks then [summaryFor scope filtered p] else [] := by
  induction ks with
  | nil => simp
  | cons k ks ih =>
    rcases List.nodup_cons.mp hnd with ⟨hk, hnd'⟩
    rw [List.map_cons, List.filter_cons]
    by_cases hkp : k = p
    · subst hkp
      have hb : ((summaryFor scope filtered k).project_name == k) = true := by
        simp [summaryFor]
      rw [hb, if_pos rfl, ih hnd']
      simp [hk]
    · have hb : ((summaryFor scope filtered k).project_name == p) = false := by
        simp [summaryFor]
        exact hkp
      rw [hb]
      rw [if_neg (by simp)]
      rw [ih hnd']
      by_cases hp : p ∈ ks
      · rw [if_pos hp, if_pos (List.mem_cons_of_mem k hp)]
      · have hnotin : p ∉ k :: ks := by
          intro h
          rcases List.mem_cons.mp h with h | h
          · exact hkp h.symm
          · exact hp h
        rw [if_neg hp, if_neg hnotin]

/-- The left join finds exactly one summary row for a grouped key, none
for an ungrouped one. -/
theorem summary_filter_eq (elec : List ElecRow) (scope : Scope) (p : String) :
    ((aggregateConsumption elec scope).filter (fun m => m.project_name == p))
      = if (groupOf (filterScope elec scope) p).isEmpty then []
        else [summaryFor scope (filterScope elec scope) p] := by
  unfold aggregateConsumption
  rw [filter_map_summaryFor scope (filterScope elec scope) p _ (nodup_keysOf _)]
  by_cases hp : p ∈ keysOf (filterScope elec scope)
  · have := (mem_keysOf_iff (filterScope elec scope) p).mp hp
    simp [hp, this]
  · have : (groupOf (filterScope elec scope) p).isEmpty := by
      by_contra hne
      exact hp ((mem_keysOf_iff (filterScope elec scope) p).mpr hne)
    simp [hp, this]

/-- Unfolding equation of `leftMerge` on a cons cell. -/
theorem leftMerge_cons (summary : List SummaryRow) (s : StaticRow) (rest : List StaticRow) :
    leftMerge summary (s :: rest)
      = (match summary.filter (fun m => m.project_name == s.project_name) with
         | [] => [unmatchedRow s]
         | ms => ms.map (matchRow s)) ++ leftMerge summary rest := rfl

/-- The join branch taken on a singleton match list. -/
theorem joinBranch_singleton (s : StaticRow) (m : SummaryRow) :
    (match ([m] : List SummaryRow) with
     | [] => [unmatchedRow s]
     | ms => ms.map (matchRow s)) = [matchRow s m] := rfl

/-- The join branch taken on an empty match list. -/
theorem joinBranch_nil (s : StaticRow) :
    (match ([] : List SummaryRow) with
     | [] => [unmatchedRow s]
     | ms => ms.map (matchRow s)) = [unmatchedRow s] := rfl

/-- The whole pipeline, row by row: the merged table is the static table
mapped through `outFor`. -/
theorem merge_eq_map (elec : List ElecRow) (scope : Scope) (static : List StaticRow) :
    merge_consumption_with_static elec static scope = static.map (outFor elec scope) := by
  induction static with
  | nil => rfl
  | cons s rest ih =>
    unfold merge_consumption_with_static at ih ⊢
    rw [leftMerge_cons, summary_filter_eq elec scope s.project_name]
    by_cases hemp : (groupOf (filterScope elec scope) s.project_name).isEmpty
    · rw [if_pos hemp, joinBranch_nil, List.map_append, ih]
      simp only [List.map_cons, List.map_nil, List.nil_append, List.cons_append]
      congr 1
      unfold postProcess unmatchedRow outFor aggValue
      rw [if_pos hemp]
    · rw [if_neg hemp, joinBranch_singleton, List.map_append, ih]
      simp only [List.map_cons, List.map_nil, List.nil_append, List.cons_append]
      congr 1
      unfold postProcess matchRow outFor aggValue summaryFor
      rw [if_neg hemp]

/-! ### Small facts about the guarded ratio and the scope filter -/

theorem ratioGuard_isSome (num den : Option ℚ) : (ratioGuard num den).isSome := by
  unfold ratioGuard
  match den, num with
  | some d, some n => by_cases h : 0 < d <;> simp [h]
  | some _, none => rfl
  | none, _ => rfl

theorem ratioGuard_num_none (den : Option ℚ) : ratioGuard none den = some 0 := by
  cases den <;> rfl

theorem ratioGuard_num_zero (den : Option ℚ) : ratioGuard (some 0) den = some 0 := by
  cases den with
  | none => rfl
  | some d =>
      unfold ratioGuard
      by_cases h : 0 < d <;> simp [h]

theorem ratioGuard_den_none (num : Option ℚ) : ratioGuard num none = some 0 := by
  cases num <;> rfl

theorem ratioGuard_den_zero (num : Option ℚ) : ratioGuard num (some 0) = some 0 := by
  cases num with
  | none => rfl
  | some n => simp [ratioGuard]

theorem mem_filterScope (elec : List ElecRow) (scope : Scope) (r : ElecRow)
    (h : r ∈ filterScope elec scope) : r ∈ elec := by
  cases scope with
  | alle => exact h
  | year y => exact (List.mem_filter.mp h).1

theorem group_eq_nil_of_no_match (elec : List ElecRow) (scope : Scope) (p : String)
    (h : ∀ r ∈ elec, r.project_name ≠ p) :
    groupOf (filterScope elec scope) p = [] := by
  unfold groupOf
  rw [List.filter_eq_nil_iff]
  intro r hr
  have := h r (mem_filterScope elec scope r hr)
  simp [this]

/-! ### Claim theorems -/

/-- Claim C1: every row of the merged output has defined (non-NaN) values
in `Year_total_KwH`, `kwh_per_student` and `kwh_per_m2`, and a building
with no matching consumption row gets `0` in all three. -/
theorem C1_zero_fill_no_nan (elec : List ElecRow) (static : List StaticRow) (scope : Scope)
    (row : OutRow) (hrow : row ∈ merge_consumption_with_static elec static scope) :
    row.Year_total_KwH.isSome ∧ row.kwh_per_student.isSome ∧ row.kwh_per_m2.isSome ∧
    ((∀ r ∈ elec, r.project_name ≠ row.project_name) →
      row.Year_total_KwH = some 0 ∧ row.kwh_per_student = some 0 ∧ row.kwh_per_m2 = some 0) := by
  rw [merge_eq_map] at hrow
  rcases List.mem_map.mp hrow with ⟨s, _, rfl⟩
  refine ⟨rfl, ratioGuard_isSome _ _, ratioGuard_isSome _ _, ?_⟩
  intro hnm
  have hgrp : groupOf (filterScope elec scope) s.project_name = [] :=
    group_eq_nil_of_no_match elec scope s.project_name hnm
  have hagg : aggValue elec scope s.project_name = none := by
    unfold aggValue
    rw [hgrp]
    rfl
  unfold outFor
  rw [hagg]
  exact ⟨rfl, ratioGuard_num_none _, ratioGuard_num_none _⟩

def elecW1 : List ElecRow := []

def staticW1 : List StaticRow := [⟨"X", some "OSLO", some 100, some 500⟩]

def rowW1 : OutRow := ⟨"X", some "OSLO", some 100, some 500, some 0, some 0, some 0⟩

theorem C1_witness :
    rowW1 ∈ merge_consumption_with_static elecW1 staticW1 Scope.alle
    ∧ rowW1.Year_total_KwH = some 0 ∧ rowW1.kwh_per_student = some 0
    ∧ rowW1.kwh_per_m2 = some 0 := by
  have hmem : rowW1 ∈ merge_consumption_with_static elecW1 staticW1 Scope.alle := by
    rw [show merge_consumption_with_static elecW1 staticW1 Scope.alle = [rowW1] from rfl]
    exact List.mem_singleton_self rowW1
  have h := C1_zero_fill_no_nan elecW1 staticW1 Scope.alle rowW1 hmem
  have hz := h.2.2.2 (by intro r hr; simp [elecW1] at hr)
  exact ⟨hmem, hz.1, hz.2.1, hz.2.2⟩

/-- Claim C2: a zero or missing student capacity forces
`kwh_per_student = 0` and a zero or missing floor area forces
`kwh_per_m2 = 0`, whatever the consumption is; the guarded computation is
total and never divides by a zero or missing denominator. -/
theorem C2_ratio_guard (elec : List ElecRow) (static : List StaticRow) (scope : Scope)
    (row : OutRow) (hrow : row ∈ merge_consumption_with_static elec static scope) :
    ((row.total_HE = none ∨ row.total_HE = some 0) → row.kwh_per_student = some 0)
    ∧ ((row.Total_BRA = none ∨ row.Total_BRA = some 0) → row.kwh_per_m2 = some 0) := by
  rw [merge_eq_map] at hrow
  rcases List.mem_map.mp hrow with ⟨s, _, rfl⟩
  constructor
  · intro h
    show ratioGuard (aggValue elec scope s.project_name) s.total_HE = some 0
    rcases h with h | h
    · rw [show (outFor elec scope s).total_HE = s.total_HE from rfl] at h
      rw [h]
      exact ratioGuard_den_none _
    · rw [show (outFor elec scope s).total_HE = s.total_HE from rfl] at h
      rw [h]
      exact ratioGuard_den_zero _
  · intro h
    show ratioGuard (aggValue elec scope s.project_name) s.Total_BRA = some 0
    rcases h with h | h
    · rw [show (outFor elec scope s).Total_BRA = s.Total_BRA from rfl] at h
      rw [h]
      exact ratioGuard_den_none _
    · rw [show (outFor elec scope s).Total_BRA = s.Total_BRA from rfl] at h
      rw [h]
      exact ratioGuard_den_zero _

def elecW2 : List ElecRow := [⟨"X", some "OSLO", some 2021, some 5000⟩]

def staticW2 : List StaticRow := [⟨"X", some "OSLO", some 0, some 0⟩]

def rowW2 : OutRow := ⟨"X", some "OSLO", some 0, some 0, some 5000, some 0, some 0⟩

theorem C2_witness :
    rowW2 ∈ merge_consumption_with_static elecW2 staticW2 (Scope.year 2021)
    ∧ rowW2.Year_total_KwH = some 5000
    ∧ rowW2.kwh_per_student = some 0 ∧ rowW2.kwh_per_m2 = some 0 := by
  have hmem : rowW2 ∈ merge_consumption_with_static elecW2 staticW2 (Scope.year 2021) := by
    rw [show merge_consumption_with_static elecW2 staticW2 (Scope.year 2021) = [rowW2] from rfl]
    exact List.mem_singleton_self rowW2
  have h := C2_ratio_guard elecW2 staticW2 (Scope.year 2021) rowW2 hmem
  exact ⟨hmem, rfl, h.1 (Or.inr rfl), h.2 (Or.inr rfl)⟩

/-- Claim C3: the merged table has exactly one row per static (Building)
row — same length, and positionally the same building identifier. -/
theorem C3_left_join_completeness (elec : List ElecRow) (static : List StaticRow)
    (scope : Scope) :
    (merge_consumption_with_static elec static scope).length = static.length
    ∧ ∀ i : ℕ,
        ((merge_consumption_with_static elec static scope)[i]?).map OutRow.project_name
          = (static[i]?).map StaticRow.project_name := by
  rw [merge_eq_map]
  refine ⟨List.length_map _ _, ?_⟩
  intro i
  rw [List.getElem?_map]
  cases static[i]? <;> rfl

/-- Claim C6: the `City` column of the merged output is exactly the static
table's `City` column (the consumption-side city, `City_elec`, is dropped
and never shown). -/
theorem C6_city_from_static (elec : List ElecRow) (static : List StaticRow) (scope : Scope) :
    (merge_consumption_with_static elec static scope).map OutRow.City
      = static.map StaticRow.City := by
  rw [merge_eq_map, List.map_map]
  rfl

/-- Claim C10: a merged row whose zero-filled total is `0` (the total was
missing or zero before the fill) also has both efficiency ratios equal to
`0`; the ratios are computed from the pre-fill total, so a zero total never
coexists with a nonzero ratio. -/
theorem C10_zero_total_zero_ratios (elec : List ElecRow) (static : List StaticRow)
    (scope : Scope) (row : OutRow)
    (hrow : row ∈ merge_consumption_with_static elec static scope)
    (h0 : row.Year_total_KwH = some 0) :
    row.kwh_per_student = some 0 ∧ row.kwh_per_m2 = some 0 := by
  rw [merge_eq_map] at hrow
  rcases List.mem_map.mp hrow with ⟨s, _, rfl⟩
  rw [show (outFor elec scope s).Year_total_KwH
        = some ((aggValue elec scope s.project_name).getD 0) from rfl] at h0
  have h0' : (aggValue elec scope s.project_name).getD 0 = 0 := by
    exact Option.some.inj h0
  show ratioGuard (aggValue elec scope s.project_name) s.total_HE = some 0
    ∧ ratioGuard (aggValue elec scope s.project_name) s.Total_BRA = some 0
  rcases hv : aggValue elec scope s.project_name with _ | v
  · exact ⟨ratioGuard_num_none _, ratioGuard_num_none _⟩
  · rw [hv] at h0'
    simp only [Option.getD_some] at h0'
    rw [h0']
    exact ⟨ratioGuard_num_zero _, ratioGuard_num_zero _⟩

def elecW10 : List ElecRow := [⟨"X", some "OSLO", some 2020, none⟩]

def rowW10 : OutRow := ⟨"X", some "OSLO", some 100, some 500, some 0, some 0, some 0⟩

theorem C10_witness :
    rowW10 ∈ merge_consumption_with_static elecW10 staticW1 Scope.alle
    ∧ rowW10.Year_total_KwH = some 0
    ∧ rowW10.kwh_per_student = some 0 ∧ rowW10.kwh_per_m2 = some 0 := by
  have heq : merge_consumption_with_static elecW10 staticW1 Scope.alle = [rowW10] := by
    simp [merge_consumption_with_static, aggregateConsumption, keysOf, dedupKeep, insert1,
      summaryFor, groupOf, filterScope, aggTotal, firstVal, sumVals, leftMerge, matchRow,
      unmatchedRow, postProcess, ratioGuard, elecW10, staticW1, rowW10]
  have hmem : rowW10 ∈ merge_consumption_with_static elecW10 staticW1 Scope.alle := by
    rw [heq]
    exact List.mem_singleton_self rowW10
  have h := C10_zero_total_zero_ratios elecW10 staticW1 Scope.alle rowW10 hmem rfl
  exact ⟨hmem, rfl, h.1, h.2⟩

/-- Claim C5 as the code actually behaves (amended): under a
specific-year scope a building's output total is the FIRST NON-MISSING
total-consumption value among its rows for that year (pandas
`GroupBy.first` skips nulls), zero-filled when all are missing or none
exist; duplicate rows are neither summed nor an error. -/
theorem C5_first_non_missing (elec : List ElecRow) (static : List StaticRow) (y : Int)
    (row : OutRow) (hrow : row ∈ merge_consumption_with_static elec static (Scope.year y)) :
    row.Year_total_KwH
      = some ((firstVal ((groupOf (filterScope elec (Scope.year y)) row.project_name).map
          (fun r => r.Year_total_KwH))).getD 0) := by
  rw [merge_eq_map] at hrow
  rcases List.mem_map.mp hrow with ⟨s, _, rfl⟩
  rw [show (outFor elec (Scope.year y) s).project_name = s.project_name from rfl]
  show some ((aggValue elec (Scope.year y) s.project_name).getD 0) = _
  unfold aggValue
  by_cases hemp : (groupOf (filterScope elec (Scope.year y)) s.project_name).isEmpty
  · rw [if_pos hemp, List.isEmpty_iff.mp hemp]
    rfl
  · rw [if_neg hemp]
    rfl

/-- Two Consumption rows for the same building and year, the first with a
missing total: by the tie-break described in the claim the output total
would be the first row's (missing, hence zero-filled) value `0`, but the
code produces the second row's value `500`. -/
def elecD5 : List ElecRow :=
  [⟨"X", some "OSLO", some 2021, none⟩, ⟨"X", some "OSLO", some 2021, some 500⟩]

def staticD5 : List StaticRow := [⟨"X", some "OSLO", some 10, some 100⟩]

theorem C5_counterexample :
    (merge_consumption_with_static elecD5 staticD5 (Scope.year 2021)).map OutRow.Year_total_KwH
        = [some 500]
    ∧ (elecD5.map ElecRow.Year_total_KwH).head? = some none
    ∧ ¬ (merge_consumption_with_static elecD5 staticD5 (Scope.year 2021)).map OutRow.Year_total_KwH
        = [some 0] := by
  have h : (merge_consumption_with_static elecD5 staticD5 (Scope.year 2021)).map
      OutRow.Year_total_KwH = [some 500] := by
    simp [merge_consumption_with_static, aggregateConsumption, keysOf, dedupKeep, insert1,
      summaryFor, groupOf, filterScope, aggTotal, firstVal, sumVals, leftMerge, matchRow,
      unmatchedRow, postProcess, ratioGuard, elecD5, staticD5]
  refine ⟨h, rfl, ?_⟩
  rw [h]
  intro hcontra
  simp at hcontra

def rowD5 : OutRow := ⟨"X", some "OSLO", some 10, some 100, some 500, some 50, some 5⟩

theorem C5_witness :
    rowD5 ∈ merge_consumption_with_static elecD5 staticD5 (Scope.year 2021)
    ∧ rowD5.Year_total_KwH
        = some ((firstVal ((groupOf (filterScope elecD5 (Scope.year 2021)) rowD5.project_name).map
            (fun r => r.Year_total_KwH))).getD 0) := by
  have heq : merge_consumption_with_static elecD5 staticD5 (Scope.year 2021) = [rowD5] := by
    simp [merge_consumption_with_static, aggregateConsumption, keysOf, dedupKeep, insert1,
      summaryFor, groupOf, filterScope, aggTotal, firstVal, sumVals, leftMerge, matchRow,
      unmatchedRow, postProcess, ratioGuard, elecD5, staticD5, rowD5]
    norm_num
  have hmem : rowD5 ∈ merge_consumption_with_static elecD5 staticD5 (Scope.year 2021) := by
    rw [heq]
    exact List.mem_singleton_self rowD5
  exact ⟨hmem, C5_first_non_missing elecD5 staticD5 2021 rowD5 hmem⟩

/-! ### Summation machinery for the scope-consistency claim -/

theorem sumVals_eq_map_getD (xs : List (Option ℚ)) :
    sumVals xs = (xs.map (fun o => o.getD 0)).sum := by
  induction xs with
  | nil => rfl
  | cons o xs ih =>
    cases o with
    | none => simpa [sumVals, List.filterMap_cons] using ih
    | some v => simp [sumVals, List.filterMap_cons, ← ih, sumVals]

theorem sum_map_filter_split (l : List ElecRow) (p : ElecRow → Bool) (f : ElecRow → ℚ) :
    ((l.filter p).map f).sum + ((l.filter (fun a => !(p a))).map f).sum = (l.map f).sum := by
  induction l with
  | nil => simp
  | cons a l ih =>
    cases hp : p a with
    | true =>
      simp only [List.filter_cons, hp, Bool.not_true, if_pos, List.map_cons, List.sum_cons,
        if_neg, Bool.false_eq_true, not_false_iff, ite_true, ite_false]
      rw [← ih]
      ring
    | false =>
      simp only [List.filter_cons, hp, Bool.not_false, List.map_cons, List.sum_cons,
        Bool.false_eq_true, ite_true, ite_false]
      rw [← ih]
      ring

theorem filter_sub_filter (l : List ElecRow) (p q : ElecRow → Bool)
    (h : ∀ a, q a = true → p a = true) : (l.filter p).filter q = l.filter q := by
  induction l with
  | nil => rfl
  | cons a l ih =>
    cases hq : q a with
    | true =>
      have hp := h a hq
      simp [List.filter_cons, hp, hq, ih]
    | false =>
      cases hp : p a with
      | true => simp [List.filter_cons, hp, hq, ih]
      | false => simp [List.filter_cons, hp, hq, ih]

/-- Summing a per-year filtered sum over a duplicate-free list of years
that covers every row's year gives the sum over all rows. -/
theorem sum_over_years (f : ElecRow → ℚ) :
    ∀ (ys : List Int) (rows : List ElecRow), ys.Nodup →
      (∀ r ∈ rows, ∃ y ∈ ys, r.Year = some y) →
      (ys.map (fun y => ((rows.filter (fun r => r.Year == some y)).map f).sum)).sum
        = (rows.map f).sum
  | [], rows, _, hc => by
    have hrows : rows = [] := by
      cases rows with
      | nil => rfl
      | cons r rs =>
        rcases hc r (List.mem_cons_self r rs) with ⟨y, hy, _⟩
        exact absurd hy (List.not_mem_nil y)
    rw [hrows]
    simp
  | y :: ys, rows, hnd, hc => by
    rcases List.nodup_cons.mp hnd with ⟨hy, hnd'⟩
    rw [List.map_cons, List.sum_cons]
    have hmap : ys.map (fun y' => ((rows.filter (fun r => r.Year == some y')).map f).sum)
        = ys.map (fun y' =>
            (((rows.filter (fun r => !(r.Year == some y))).filter
              (fun r => r.Year == some y')).map f).sum) := by
      apply List.map_congr_left
      intro y' hy'
      have hyy' : y' ≠ y := fun hcontra => hy (hcontra ▸ hy')
      rw [filter_sub_filter rows (fun r => !(r.Year == some y)) (fun r => r.Year == some y')]
      intro a ha
      have : a.Year = some y' := by simpa using ha
      simp [this, hyy']
    rw [hmap]
    rw [sum_over_years f ys (rows.filter (fun r => !(r.Year == some y))) hnd' ?_]
    · exact sum_map_filter_split rows (fun r => r.Year == some y) f
    · intro r hr
      rcases List.mem_filter.mp hr with ⟨hmem, hneq⟩
      rcases hc r hmem with ⟨y'', hy'', heq⟩
      rcases List.mem_cons.mp hy'' with hcase | hcase
      · rw [hcase] at heq
        rw [heq] at hneq
        simp at hneq
      · exact ⟨y'', hcase, heq⟩

/-- With duplicate-free years among a building's rows, its per-year group
has at most one row. -/
theorem filter_year_length_le_one (l : List ElecRow)
    (hnd : (l.map (fun r => r.Year)).Nodup) (y : Int) :
    (l.filter (fun r => r.Year == some y)).length ≤ 1 := by
  induction l with
  | nil => simp
  | cons r l ih =>
    rw [List.map_cons, List.nodup_cons] at hnd
    rcases hnd with ⟨hhead, htail⟩
    cases hb : (r.Year == some y) with
    | false => simpa [List.filter_cons, hb] using ih htail
    | true =>
      have hry : r.Year = some y := by simpa using hb
      have hnil : l.filter (fun r' => r'.Year == some y) = [] := by
        rw [List.filter_eq_nil_iff]
        intro r' hr' hbeq
        have hr'y : r'.Year = some y := by simpa using hbeq
        exact hhead (List.mem_map.mpr ⟨r', hr', by rw [hr'y, hry]⟩)
      simp [List.filter_cons, hb, hnil]

theorem mem_yearsOf (elec : List ElecRow) (r : ElecRow) (y : Int)
    (hr : r ∈ elec) (hy : r.Year = some y) : y ∈ yearsOf elec := by
  unfold yearsOf
  rw [mem_dedupKeep]
  exact List.mem_filterMap.mpr ⟨r, hr, hy⟩

theorem nodup_yearsOf (elec : List ElecRow) : (yearsOf elec).Nodup :=
  nodup_dedupKeep _

theorem filter_swap (l : List ElecRow) (p q : ElecRow → Bool) :
    (l.filter p).filter q = (l.filter q).filter p := by
  induction l with
  | nil => rfl
  | cons a l ih =>
    cases hp : p a <;> cases hq : q a <;> simp [List.filter_cons, hp, hq, ih]

theorem groupOf_filterScope_year (elec : List ElecRow) (p : String) (y : Int) :
    groupOf (filterScope elec (Scope.year y)) p
      = (elec.filter (fun r => r.project_name == p)).filter (fun r => r.Year == some y) := by
  unfold groupOf filterScope
  exact filter_swap elec (fun r => r.Year == some y) (fun r => r.project_name == p)

theorem aggValue_year_getD (elec : List ElecRow) (y : Int) (p : String) :
    (aggValue elec (Scope.year y) p).getD 0
      = (firstVal ((groupOf (filterScope elec (Scope.year y)) p).map
          (fun r => r.Year_total_KwH))).getD 0 := by
  unfold aggValue
  by_cases hemp : (groupOf (filterScope elec (Scope.year y)) p).isEmpty
  · rw [if_pos hemp, List.isEmpty_iff.mp hemp]
    rfl
  · rw [if_neg hemp]
    rfl

theorem aggValue_alle_getD (elec : List ElecRow) (p : String) :
    (aggValue elec Scope.alle p).getD 0
      = sumVals ((groupOf elec p).map (fun r => r.Year_total_KwH)) := by
  unfold aggValue
  by_cases hemp : (groupOf (filterScope elec Scope.alle) p).isEmpty
  · rw [if_pos hemp]
    have : groupOf (filterScope elec Scope.alle) p = [] := List.isEmpty_iff.mp hemp
    rw [show filterScope elec Scope.alle = elec from rfl] at this
    rw [this]
    rfl
  · rw [if_neg hemp]
    rfl

theorem firstVal_singleton_getD (o : Option ℚ) : (firstVal [o]).getD 0 = o.getD 0 := by
  cases o <;> rfl

/-- Claim C4: for a building whose consumption rows have pairwise distinct
(and present) years, the per-building totals of the individual-year scope
calls, summed over every year appearing in the Consumption table, equal
the total of the single all-years (`'Alle'`) call. -/
theorem C4_scope_consistency (elec : List ElecRow) (s : StaticRow)
    (h1 : ((elec.filter (fun r => r.project_name == s.project_name)).map
        (fun r => r.Year)).Nodup)
    (h2 : ∀ r ∈ elec, r.project_name = s.project_name → r.Year.isSome) :
    ((yearsOf elec).map (fun y =>
        totalOf (merge_consumption_with_static elec [s] (Scope.year y)))).sum
      = totalOf (merge_consumption_with_static elec [s] Scope.alle) := by
  have hred : ∀ scope : Scope,
      totalOf (merge_consumption_with_static elec [s] scope)
        = (aggValue elec scope s.project_name).getD 0 := by
    intro scope
    rw [merge_eq_map]
    simp [totalOf, outFor]
  have hterm : ∀ y ∈ yearsOf elec,
      totalOf (merge_consumption_with_static elec [s] (Scope.year y))
        = (((elec.filter (fun r => r.project_name == s.project_name)).filter
            (fun r => r.Year == some y)).map (fun r => r.Year_total_KwH.getD 0)).sum := by
    intro y _
    rw [hred (Scope.year y), aggValue_year_getD, groupOf_filterScope_year]
    have hlen := filter_year_length_le_one
      (elec.filter (fun r => r.project_name == s.project_name)) h1 y
    rcases hg : (elec.filter (fun r => r.project_name == s.project_name)).filter
        (fun r => r.Year == some y) with _ | ⟨r, rest⟩
    · rw [hg]
      rfl
    · rcases rest with _ | ⟨r', rest'⟩
      · rw [hg, List.map_cons, List.map_nil, firstVal_singleton_getD, List.map_cons, List.map_nil,
          List.sum_cons, List.sum_nil, add_zero]
      · rw [hg] at hlen
        simp at hlen
  rw [List.map_congr_left hterm]
  rw [sum_over_years (fun r => r.Year_total_KwH.getD 0) (yearsOf elec)
    (elec.filter (fun r => r.project_name == s.project_name)) (nodup_yearsOf elec) ?_]
  · rw [hred Scope.alle, aggValue_alle_getD, sumVals_eq_map_getD, List.map_map]
    rfl
  · intro r hr
    rcases List.mem_filter.mp hr with ⟨hmem, hbeq⟩
    have hpn : r.project_name = s.project_name := by simpa using hbeq
    have hsome := h2 r hmem hpn
    rcases hy : r.Year with _ | y
    · rw [hy] at hsome
      simp at hsome
    · exact ⟨y, mem_yearsOf elec r y hmem hy, rfl⟩

def elecD4 : List ElecRow :=
  [⟨"X", some "OSLO", some 2020, some 1000⟩, ⟨"X", some "OSLO", some 2021, some 2000⟩]

theorem C4_witness :
    ((elecD4.filter (fun r => r.project_name == "X")).map (fun r => r.Year)).Nodup
    ∧ (∀ r ∈ elecD4, r.project_name = "X" → r.Year.isSome)
    ∧ ((yearsOf elecD4).map (fun y =>
          totalOf (merge_consumption_with_static elecD4 [⟨"X", some "OSLO", some 100, some 500⟩]
            (Scope.year y)))).sum
        = totalOf (merge_consumption_with_static elecD4 [⟨"X", some "OSLO", some 100, some 500⟩]
            Scope.alle) :=
  ⟨by decide, by decide,
    C4_scope_consistency elecD4 ⟨"X", some "OSLO", some 100, some 500⟩ (by decide) (by decide)⟩

/-! ### Session model for the purity and frame claims

`merge_consumption_with_static` reads nothing but its arguments (no
attribute of `self` is touched) and writes only to the freshly built
result of `pd.merge`: the year filter, `groupby(...).agg(...).reset_index()`,
`pd.merge` and `drop(axis=1)` each return new frames, and the three column
assignments (lines 175-188) target `merged_df`, the new frame returned by
`pd.merge`.  The session state below carries the caller's two tables; a
call returns the state it was given together with the output computed from
that state, which is how the translated source behaves since it never
assigns into `electricity_df` or `static_df`. -/

structure Session where
  electricity : List ElecRow
  static : List StaticRow
deriving DecidableEq

/-- One call of the aggregator against the session's shared tables:
the resulting session state and the returned merged table. -/
def callAggregator (sess : Session) (scope : Scope) : Session × List OutRow :=
  (sess, merge_consumption_with_static sess.electricity sess.static scope)

/-- Claim C7: calling the aggregator twice in sequence with the same scope
produces identical output tables — the second call runs on the state left
behind by the first and still returns the same table; the output is a
function of the argument tables and scope alone. -/
theorem C7_idempotent (sess : Session) (scope : Scope) :
    (callAggregator sess scope).2 = (callAggregator (callAggregator sess scope).1 scope).2 :=
  rfl

/-- Claim C8: a call leaves the caller's Consumption and Building tables
exactly as they were — the aggregator never mutates its inputs. -/
theorem C8_no_mutation (sess : Session) (scope : Scope) :
    (callAggregator sess scope).1.electricity = sess.electricity
    ∧ (callAggregator sess scope).1.static = sess.static := ⟨rfl, rfl⟩

/-! ### Untyped frames for the schema-error claim

The source performs no explicit schema validation: a missing required
column surfaces as the pandas `KeyError` of the first operation that
selects it, and that exception carries the missing column name and nothing
else (no table name, no operation name).  `checkedMerge` reproduces the
column-presence semantics of the pipeline in source order:

1. `electricity_df['Year']` for a specific-year scope (line 142),
2. `groupby('project_name')` (lines 150, 156),
3. `.agg({'Year_total_KwH': ..., 'City': ...})` (lines 150-158),
4. `pd.merge(..., on='project_name')` needing the key in `static_df`
   (lines 162-168),
5. `merged_df['total_HE']` and `merged_df['Total_BRA']` (lines 175-185),

and otherwise decodes the cells and delegates to the typed pipeline.
An `Except.error c` models the propagated `KeyError(c)`: the function
returns no table at all in that case. -/

inductive CVal where
  | na : CVal
  | num : ℚ → CVal
  | str : String → CVal
deriving DecidableEq

/-- An untyped table: a column list and rows of column-to-cell bindings
(a missing binding is NaN). -/
structure Frame where
  cols : List String
  rows : List (List (String × CVal))
deriving DecidableEq

def cellOf (r : List (String × CVal)) (c : String) : CVal :=
  (List.lookup c r).getD CVal.na

def getStr : CVal → Option String
  | CVal.str s => some s
  | _ => none

def getNum : CVal → Option ℚ
  | CVal.num q => some q
  | _ => none

/-- A numeric cell read as an integer year (years are integral in the data
model; a non-integral or missing cell yields no year). -/
def getYear : CVal → Option Int
  | CVal.num q => if q.den = 1 then some q.num else none
  | _ => none

def decodeElec (r : List (String × CVal)) : ElecRow :=
  { project_name := (getStr (cellOf r "project_name")).getD ""
    City := getStr (cellOf r "City")
    Year := getYear (cellOf r "Year")
    Year_total_KwH := getNum (cellOf r "Year_total_KwH") }

def decodeStatic (r : List (String × CVal)) : StaticRow :=
  { project_name := (getStr (cellOf r "project_name")).getD ""
    City := getStr (cellOf r "City")
    total_HE := getNum (cellOf r "total_HE")
    Total_BRA := getNum (cellOf r "Total_BRA") }

/-- Does the scope make line 142 select the `Year` column? -/
def needYear : Scope → Bool
  | Scope.alle => false
  | Scope.year _ => true

/-- Column-presence semantics of `merge_consumption_with_static`: the
first pandas operation that selects an absent column raises `KeyError`
with exactly that column name; otherwise the typed pipeline runs. -/
def checkedMerge (elec static : Frame) (scope : Scope) : Except String (List OutRow) :=
  if needYear scope = true ∧ "Year" ∉ elec.cols then Except.error "Year"
  else if "project_name" ∉ elec.cols then Except.error "project_name"
  else if "Year_total_KwH" ∉ elec.cols then Except.error "Year_total_KwH"
  else if "City" ∉ elec.cols then Except.error "City"
  else if "project_name" ∉ static.cols then Except.error "project_name"
  else if "total_HE" ∉ static.cols then Except.error "total_HE"
  else if "Total_BRA" ∉ static.cols then Except.error "Total_BRA"
  else Except.ok (merge_consumption_with_static (elec.rows.map decodeElec)
    (static.rows.map decodeStatic) scope)

/-- Some required column is absent from the input tables. -/
def missingRequired (elec static : Frame) (scope : Scope) : Prop :=
  (needYear scope = true ∧ "Year" ∉ elec.cols)
  ∨ "project_name" ∉ elec.cols ∨ "Year_total_KwH" ∉ elec.cols ∨ "City" ∉ elec.cols
  ∨ "project_name" ∉ static.cols ∨ "total_HE" ∉ static.cols ∨ "Total_BRA" ∉ static.cols

/-- Substring test on character lists. -/
def hasSub : List Char → List Char → Bool
  | [], needle => needle.isEmpty
  | c :: t, needle => needle.isPrefixOf (c :: t) || hasSub t needle

/-- Substring test on strings, to state what an error message mentions. -/
def strHasSub (hay pat : String) : Bool := hasSub hay.data pat.data

/-- Claim C9 (amended): on an input missing a required column the call
fails fast — it returns an error naming a genuinely missing column and no
partial merged table — but the error carries only the column name. -/
theorem C9_missing_column_fails (elec static : Frame) (scope : Scope)
    (h : missingRequired elec static scope) :
    ∃ c : String, checkedMerge elec static scope = Except.error c
      ∧ (c ∉ elec.cols ∨ c ∉ static.cols) := by
  unfold checkedMerge
  by_cases h1 : needYear scope = true ∧ "Year" ∉ elec.cols
  · exact ⟨"Year", by rw [if_pos h1], Or.inl h1.2⟩
  · rw [if_neg h1]
    by_cases h2 : "project_name" ∉ elec.cols
    · exact ⟨"project_name", by rw [if_pos h2], Or.inl h2⟩
    · rw [if_neg h2]
      by_cases h3 : "Year_total_KwH" ∉ elec.cols
      · exact ⟨"Year_total_KwH", by rw [if_pos h3], Or.inl h3⟩
      · rw [if_neg h3]
        by_cases h4 : "City" ∉ elec.cols
        · exact ⟨"City", by rw [if_pos h4], Or.inl h4⟩
        · rw [if_neg h4]
          by_cases h5 : "project_name" ∉ static.cols
          · exact ⟨"project_name", by rw [if_pos h5], Or.inr h5⟩
          · rw [if_neg h5]
            by_cases h6 : "total_HE" ∉ static.cols
            · exact ⟨"total_HE", by rw [if_pos h6], Or.inr h6⟩
            · rw [if_neg h6]
              by_cases h7 : "Total_BRA" ∉ static.cols
              · exact ⟨"Total_BRA", by rw [if_pos h7], Or.inr h7⟩
              · rcases h with hc | hc | hc | hc | hc | hc | hc
                · exact absurd hc h1
                · exact absurd hc h2
                · exact absurd hc h3
                · exact absurd hc h4
                · exact absurd hc h5
                · exact absurd hc h6
                · exact absurd hc h7

/-- An electricity frame lacking the `Year` column. -/
def elecNoYear : Frame :=
  Frame.mk ["project_name", "City", "Year_total_KwH"]
    [[("project_name", CVal.str "X"), ("City", CVal.str "OSLO"),
      ("Year_total_KwH", CVal.num 1000)]]

/-- A static frame with every column the pipeline selects. -/
def staticOk : Frame :=
  Frame.mk ["project_name", "City", "total_HE", "Total_BRA"]
    [[("project_name", CVal.str "X"), ("City", CVal.str "OSLO"),
      ("total_HE", CVal.num 100), ("Total_BRA", CVal.num 500)]]

/-- Claim C9 as stated fails: with `Year` missing under a specific-year
scope the call does fail fast with no partial table and the error does
name the missing column, but the whole error payload is the bare column
name — it mentions no table and no operation. -/
theorem C9_counterexample :
    checkedMerge elecNoYear staticOk (Scope.year 2021) = Except.error "Year"
    ∧ strHasSub "Year" "table" = false
    ∧ strHasSub "Year" "electricity" = false
    ∧ strHasSub "Year" "static" = false
    ∧ strHasSub "Year" "merge" = false
    ∧ strHasSub "Year" "filter" = false
    ∧ strHasSub "Year" "groupby" = false := by
  refine ⟨?_, by decide, by decide, by decide, by decide, by decide, by decide⟩
  rfl

/-- A static frame lacking `total_HE`, for the witness of the amended
schema-error claim. -/
def staticNoHE : Frame :=
  Frame.mk ["project_name", "City", "Total_BRA"]
    [[("project_name", CVal.str "X"), ("City", CVal.str "OSLO"),
      ("Total_BRA", CVal.num 500)]]

theorem C9_witness :
    missingRequired elecNoYear staticNoHE Scope.alle
    ∧ ∃ c : String, checkedMerge elecNoYear staticNoHE Scope.alle = Except.error c
        ∧ (c ∉ elecNoYear.cols ∨ c ∉ staticNoHE.cols) :=
  ⟨by right; right; right; right; right; left; decide,
    C9_missing_column_fails elecNoYear staticNoHE Scope.alle
      (by right; right; right; right; right; left; decide)⟩

-- Sanity checks of the embedding on the spec's scenarios (Scenario A, B, D).
example :
    merge_consumption_with_static
      [⟨"X", some "OSLO", some 2021, some 10000⟩]
      [⟨"X", some "OSLO", some 100, some 500⟩]
      (Scope.year 2021)
      = [⟨"X", some "OSLO", some 100, some 500, some 10000, some 100, some 20⟩] := by
  simp [merge_consumption_with_static, aggregateConsumption, keysOf, dedupKeep, insert1,
    summaryFor, groupOf, filterScope, aggTotal, firstVal, sumVals, leftMerge, matchRow,
    unmatchedRow, postProcess, ratioGuard]
  norm_num

example :
    merge_consumption_with_static
      []
      [⟨"X", some "OSLO", some 100, some 500⟩]
      Scope.alle
      = [⟨"X", some "OSLO", some 100, some 500, some 0, some 0, some 0⟩] := by
  simp [merge_consumption_with_static, aggregateConsumption, keysOf, dedupKeep, insert1,
    summaryFor, groupOf, filterScope, aggTotal, firstVal, sumVals, leftMerge, matchRow,
    unmatchedRow, postProcess, ratioGuard]

example :
    totalOf (merge_consumption_with_static
      [⟨"X", some "OSLO", some 2020, some 1000⟩, ⟨"X", some "OSLO", some 2021, some 2000⟩]
      [⟨"X", some "OSLO", some 100, some 500⟩]
      Scope.alle) = 3000 := by
  simp [merge_consumption_with_static, aggregateConsumption, keysOf, dedupKeep, insert1,
    summaryFor, groupOf, filterScope, aggTotal, firstVal, sumVals, leftMerge, matchRow,
    unmatchedRow, postProcess, ratioGuard, totalOf]
  norm_num
